import Mathlib

/-!
Shallow embedding of
`src/google/cloud/documentai_toolbox/wrappers/document_revision.py`:
the revision-replay engine (`_modify_docproto`), chain construction
(`DocumentWithRevisions.from_gcs_prefix_with_revisions`) and revision lookup
(`DocumentWithRevisions.at_revision`).

GCS fetching and protobuf deserialization are out of scope; records arrive
already deserialized, as in the spec's DocumentSource abstraction.  The
`Entity` wrapper class lives in `wrappers/entity.py`, which is not under
`src/`; its constructor and `replace` method are modelled from the spec
(see the doc comments on `Entity.ofRev` and `Entity.replaceWith`).
-/

namespace DocRev

/-- `documentai.Document.Provenance.OperationType` values that
`_modify_docproto` distinguishes.  All enum members other than
ADD / OPERATION_TYPE_UNSPECIFIED / REMOVE / REPLACE fall through the
`if`/`elif` ladder with no effect; they are collapsed into `OTHER`. -/
inductive OpType where
  | ADD
  | OPERATION_TYPE_UNSPECIFIED
  | REMOVE
  | REPLACE
  | OTHER
  deriving DecidableEq, Repr

/-- The name string of an operation type, as `_OP_TYPE(...).name` yields. -/
def OpType.name : OpType → String
  | .ADD => "ADD"
  | .OPERATION_TYPE_UNSPECIFIED => "OPERATION_TYPE_UNSPECIFIED"
  | .REMOVE => "REMOVE"
  | .REPLACE => "REPLACE"
  | .OTHER => "OTHER"

/-- One raw `documentai.Document.Entity` carried by a revision record,
restricted to the fields `_modify_docproto` reads: `provenance.type_`,
`id` (converted by `int(e.id)` in the source; embedded directly as the
integer), `type_` and `mention_text`. -/
structure RevEntity where
  provType : OpType
  id : Int
  type_ : String
  mention_text : String
  deriving DecidableEq, Repr

/-- The toolbox `Entity` wrapper, restricted to the fields the revision
code reads: `type_` and `mention_text`.

Modelled from the spec: `wrappers/entity.py` is not under `src/`; the spec's
data model gives `Entity = { kind, mentionText }`. -/
structure Entity where
  type_ : String
  mention_text : String
  deriving DecidableEq, Repr

/-- Modelled from the spec: `Entity(documentai_entity=e)` constructs a new
Entity from the operation's payload ("construct a new Entity from the
operation's payload"). -/
def Entity.ofRev (e : RevEntity) : Entity :=
  { type_ := e.type_, mention_text := e.mention_text }

/-- Modelled from the spec: `Entity.replace(documentai_entity=e)` overwrites
the targeted entity's kind/text with the payload's kind/text in place. -/
def Entity.replaceWith (_old : Entity) (e : RevEntity) : Entity :=
  { type_ := e.type_, mention_text := e.mention_text }

/-- One dict appended to `history` by `_modify_docproto`.  The
`"object": "Entity"` key is constant and omitted; `replace_type` /
`replace_text` are present only for REPLACE entries (`none` otherwise). -/
structure HistoryEntry where
  entity_provenance_type : String
  original_entity : RevEntity
  original_type : String
  original_text : String
  replace_type : Option String
  replace_text : Option String
  deriving DecidableEq, Repr

deriving instance DecidableEq for Except

/-- Python sequence-index resolution for `l.pop(i)` and `l[i]`:
valid iff `-len ≤ i < len`; a negative `i` counts from the end. -/
def pyIdx (i : Int) (len : Nat) : Option Nat :=
  if 0 ≤ i ∧ i < (len : Int) then some i.toNat
  else if -(len : Int) ≤ i ∧ i < 0 then some (i + len).toNat
  else none

/-- The mutable state of `_modify_docproto`'s loop:
(`entities_array`, `history`). -/
abbrev PatchState := List Entity × List HistoryEntry

/-- One iteration of the loop body of `_modify_docproto`
(lines 119-158 of `document_revision.py`), acting on the current
(`entities_array`, `history`) state.  A Python `IndexError` (from
`entities_array.pop(int(e.id) - 1)` or `entities_array[int(e.id) - 1]`)
is returned as `.error st` where `st` is the state at the moment the
exception is raised: for REMOVE, `pop` raises before the history append;
for REPLACE, the history append happens first, then the index access. -/
def applyOpState (st : PatchState) (e : RevEntity) : Except PatchState PatchState :=
  let (entities_array, history) := st
  match e.provType with
  | .ADD | .OPERATION_TYPE_UNSPECIFIED =>
      .ok (entities_array ++ [Entity.ofRev e],
           history ++ [{ entity_provenance_type := e.provType.name,
                         original_entity := e,
                         original_type := e.type_,
                         original_text := e.mention_text,
                         replace_type := none,
                         replace_text := none }])
  | .REMOVE =>
      match pyIdx (e.id - 1) entities_array.length with
      | none => .error (entities_array, history)
      | some j =>
          let entity := entities_array.getD j ⟨"", ""⟩
          .ok (entities_array.eraseIdx j,
               history ++ [{ entity_provenance_type := e.provType.name,
                             original_entity := e,
                             original_type := entity.type_,
                             original_text := entity.mention_text,
                             replace_type := none,
                             replace_text := none }])
  | .REPLACE =>
      let history' := history ++ [{ entity_provenance_type := e.provType.name,
                                    original_entity := e,
                                    original_type := e.type_,
                                    original_text := e.mention_text,
                                    replace_type := some e.type_,
                                    replace_text := some e.mention_text }]
      match pyIdx (e.id - 1) entities_array.length with
      | none => .error (entities_array, history')
      | some j =>
          .ok (entities_array.set j
                 ((entities_array.getD j ⟨"", ""⟩).replaceWith e), history')
  | .OTHER => .ok (entities_array, history)

/-- The loop of `_modify_docproto` from an arbitrary starting state:
operations are applied strictly in list order, each observing the
cumulative state left by the earlier ones; the first `IndexError`
aborts the run. -/
def runOps (st : PatchState) : List RevEntity → Except PatchState PatchState
  | [] => .ok st
  | e :: rest =>
      match applyOpState st e with
      | .error s => .error s
      | .ok s => runOps s rest

/-- `_modify_docproto(entities)` (lines 116-159): starts from empty
`entities_array` and `history` and folds the loop body over the record's
entities. -/
def modifyDocproto (es : List RevEntity) : Except PatchState PatchState :=
  runOps ([], []) es

/-- One revision record, as `from_gcs_prefix_with_revisions` consumes it:
a revision document `rev` with `rev.revisions[0].id`,
`rev.revisions[0].parent` and `rev.entities`. -/
structure RevRecord where
  id : String
  parent : List String
  entities : List RevEntity
  deriving DecidableEq, Repr

/-- The base document's non-entity payload (pages/text), opaque to the
revision engine; `copy.deepcopy(immutable_doc)` clones it verbatim. -/
structure BaseDoc where
  payload : String
  deriving DecidableEq, Repr

/-- One `DocumentWithRevisions` node of the chain.  `next_` / `last` are
the doubly-linked-list references, embedded as indices into the chain's
node list (`none` = Python `None`). -/
structure Node where
  revision_id : Option String
  entities : List Entity
  history : List HistoryEntry
  payload : String
  next_ : Option Nat
  last : Option Nat
  deriving DecidableEq, Repr

/-- Default node, standing for no node (used only for out-of-range
`getD` access, which well-formedness rules out). -/
def dNode : Node :=
  { revision_id := none, entities := [], history := [], payload := "",
    next_ := none, last := none }

/-- `_get_revised_documents` for each record in order, propagating the
first `IndexError` (which in the source escapes
`from_gcs_prefix_with_revisions` and aborts the whole build):
returns each record's `(id, entities, history)` triple. -/
def collectSnaps : List RevRecord → Option (List (String × PatchState))
  | [] => some []
  | r :: rs =>
      match modifyDocproto r.entities with
      | .error _ => none
      | .ok st => (collectSnaps rs).map (fun rest => (r.id, st) :: rest)

/-- Node `i` of a chain of `n` nodes, with the link values the
construction loop leaves behind: `immutable_revision_doc.next_ =
revision_doc` and `revision_doc.last = immutable_revision_doc` thread
consecutive nodes; the head's `last` and the tail's `next_` keep their
dataclass default `None`. -/
def mkNode (i n : Nat) (rid : Option String) (payload : String)
    (st : PatchState) : Node :=
  { revision_id := rid, entities := st.1, history := st.2, payload := payload,
    next_ := if i = n - 1 then none else some (i + 1),
    last := if i = 0 then none else some (i - 1) }

/-- `DocumentWithRevisions.from_gcs_prefix_with_revisions`
(lines 216-243), after the out-of-scope GCS fetch: node 0 is the
unrevised base wrapper (`revision_id = None`, empty entities and
history); node `k+1` is record `k`'s snapshot, whose document is a
deepcopy of the base (pages/text payload cloned verbatim) with
`d.entities` replaced by `_modify_docproto`'s output and whose
`history` is that record's history list.  `none` models the
`IndexError` escaping when any record's replay fails. -/
def buildChain (base : BaseDoc) (records : List RevRecord) :
    Option (List Node) :=
  match collectSnaps records with
  | none => none
  | some snaps =>
      some ((List.range (snaps.length + 1)).map (fun i =>
        if i = 0 then mkNode 0 (snaps.length + 1) none base.payload ([], [])
        else
          mkNode i (snaps.length + 1)
            (some (snaps.getD (i - 1) ("", ([], []))).1) base.payload
            (snaps.getD (i - 1) ("", ([], []))).2))

/-- What `at_revision` returns: a snapshot node (by index) or the
string literal `"Not Found"` (line 262). -/
inductive LookupResult where
  | snap (i : Nat)
  | str (s : String)
  deriving DecidableEq, Repr

/-- The first `while` loop of `at_revision` (lines 246-249):
`while self.last != None and id != self.revision_id: m_next = self;
self = self.last; self.next_ = m_next`.  Walks `last` links backward,
reassigning each predecessor's `next_` to the node just left.  `fuel`
makes the loop total; on a well-formed chain the walk strictly
descends, so `fuel = nodes.length` never runs out. -/
def backLoop (id : String) : Nat → List Node → Nat → List Node × Nat
  | 0, nodes, cur => (nodes, cur)
  | fuel + 1, nodes, cur =>
      let n := nodes.getD cur dNode
      match n.last with
      | none => (nodes, cur)
      | some p =>
          if some id = n.revision_id then (nodes, cur)
          else
            backLoop id fuel
              (nodes.set p { nodes.getD p dNode with next_ := some cur }) p

/-- The second `while` loop of `at_revision` (lines 254-257): walks
`next_` links forward, reassigning each successor's `last`. -/
def fwdLoop (id : String) : Nat → List Node → Nat → List Node × Nat
  | 0, nodes, cur => (nodes, cur)
  | fuel + 1, nodes, cur =>
      let n := nodes.getD cur dNode
      match n.next_ with
      | none => (nodes, cur)
      | some p =>
          if some id = n.revision_id then (nodes, cur)
          else
            fwdLoop id fuel
              (nodes.set p { nodes.getD p dNode with last := some cur }) p

/-- `DocumentWithRevisions.at_revision(self, id)` (lines 245-262), on a
chain whose nodes live in `nodes` with `self` at index `cur`.  Returns
the possibly-relinked node list together with the result: the matching
node, or the string `"Not Found"`. -/
def atRevision (fuel : Nat) (nodes : List Node) (cur : Nat) (id : String) :
    List Node × LookupResult :=
  let s1 := backLoop id fuel nodes cur
  if some id = (s1.1.getD s1.2 dNode).revision_id then (s1.1, .snap s1.2)
  else
    let s2 := fwdLoop id fuel s1.1 s1.2
    if some id = (s2.1.getD s2.2 dNode).revision_id then (s2.1, .snap s2.2)
    else (s2.1, .str "Not Found")

/-- The chain's links are exactly the doubly-linked structure the
construction loop produces: node `i`'s `last` is `i - 1` (none at the
head) and `next_` is `i + 1` (none at the tail). -/
def wfLinks (nodes : List Node) : Prop :=
  ∀ i, i < nodes.length →
    (nodes.getD i dNode).last = (if i = 0 then none else some (i - 1)) ∧
    (nodes.getD i dNode).next_ =
      (if i = nodes.length - 1 then none else some (i + 1))

/-- A sample base document used by concrete witnesses. -/
def sampleBase : BaseDoc := ⟨"text"⟩

/-- Two revision records: `r1` adds entity (A, x), `r2` adds entity (B, y). -/
def sampleRecords : List RevRecord :=
  [⟨"r1", [], [⟨.ADD, 0, "A", "x"⟩]⟩, ⟨"r2", ["r1"], [⟨.ADD, 0, "B", "y"⟩]⟩]

/-- The three-node chain `buildChain` produces from `sampleRecords`. -/
def sampleChain : List Node := (buildChain sampleBase sampleRecords).getD []

/-! ## Helper lemmas -/

theorem pyIdx_eq_none_iff (i : Int) (len : Nat) :
    pyIdx i len = none ↔ i < -(len : Int) ∨ (len : Int) ≤ i := by
  unfold pyIdx
  split_ifs with h1 h2 <;> simp <;> omega

theorem pyIdx_isSome (i : Int) (len : Nat)
    (h : -(len : Int) ≤ i ∧ i < (len : Int)) : ∃ j, pyIdx i len = some j := by
  rcases Option.eq_none_or_eq_some (pyIdx i len) with hn | hs
  · rw [pyIdx_eq_none_iff] at hn; omega
  · exact hs

theorem list_set_getD {α : Type} (l : List α) (i : Nat) (d : α) :
    l.set i (l.getD i d) = l := by
  induction l generalizing i with
  | nil => rfl
  | cons a tl ih =>
      cases i with
      | zero => rfl
      | succ j => simpa [List.set, List.getD] using ih j

theorem node_set_next_self (n : Node) (v : Option Nat) (h : n.next_ = v) :
    { n with next_ := v } = n := by
  cases n; cases h; rfl

theorem node_set_last_self (n : Node) (v : Option Nat) (h : n.last = v) :
    { n with last := v } = n := by
  cases n; cases h; rfl

/-! ## Claim C4 -/

/-- C4 (counterexample): on the singleton entity list `[(A, x)]`, the Remove
operation with `targetIndex = 0` is outside `1..len(entities)` yet does NOT
fail: `pop(0 - 1) = pop(-1)` succeeds and removes the (last) entity, refuting
the claimed failure condition "fails iff targetIndex outside 1..len". -/
theorem remove_bounds_counterexample :
    ¬ (1 ≤ (0 : Int) ∧ (0 : Int) ≤ ([⟨"A", "x"⟩] : List Entity).length) ∧
    applyOpState ([⟨"A", "x"⟩], []) ⟨.REMOVE, 0, "", ""⟩ =
      .ok ([], [⟨"REMOVE", ⟨.REMOVE, 0, "", ""⟩, "A", "x", none, none⟩]) := by
  decide

/-- C4 (amended): Remove fails (IndexError from `pop(targetIndex - 1)`) iff
`targetIndex < 1 - len(entities)` or `targetIndex > len(entities)` — Python's
negative indexing also accepts targets in `1 - len .. 0`, counting from the
end.  On failure both the entity list and the history are unchanged (`pop`
raises before the history append, so the failure is atomic); on success the
entity at Python index `targetIndex - 1` is removed and its original
kind/text are recorded in the history entry. -/
theorem remove_bounds_python (ents : List Entity) (hist : List HistoryEntry)
    (t : Int) (rk rt : String) :
    ((t < 1 - (ents.length : Int) ∨ (ents.length : Int) < t) →
      applyOpState (ents, hist) ⟨.REMOVE, t, rk, rt⟩ = .error (ents, hist)) ∧
    (1 - (ents.length : Int) ≤ t → t ≤ (ents.length : Int) →
      ∃ j, pyIdx (t - 1) ents.length = some j ∧
        applyOpState (ents, hist) ⟨.REMOVE, t, rk, rt⟩ =
          .ok (ents.eraseIdx j,
               hist ++ [⟨"REMOVE", ⟨.REMOVE, t, rk, rt⟩,
                         (ents.getD j ⟨"", ""⟩).type_,
                         (ents.getD j ⟨"", ""⟩).mention_text, none, none⟩])) := by
  constructor
  · intro h
    have hnone : pyIdx (t - 1) ents.length = none :=
      (pyIdx_eq_none_iff _ _).mpr (by omega)
    simp [applyOpState, hnone]
  · intro h1 h2
    obtain ⟨j, hj⟩ := pyIdx_isSome (t - 1) ents.length (by omega)
    exact ⟨j, hj, by simp [applyOpState, hj, OpType.name]⟩

/-- C4 (witness): Remove with target 3 on a one-entity list fails atomically. -/
theorem remove_bounds_python_witness :
    applyOpState ([⟨"A", "x"⟩], []) ⟨.REMOVE, 3, "", ""⟩ =
      .error ([⟨"A", "x"⟩], []) :=
  (remove_bounds_python [⟨"A", "x"⟩] [] 3 "" "").1 (by decide)

/-! ## Claim C5 -/

/-- C5 (counterexample): replacing the single entity `(A, x)` with payload
`(B, y)` produces a history entry whose `original_type`/`original_text` are
the PAYLOAD values `B`/`y`, not the targeted entity's pre-replace values
`A`/`x` — the source builds the entry from `e.type_`/`e.mention_text` of the
incoming revision entity, so the claimed recording of the original values is
false. -/
theorem replace_history_counterexample :
    applyOpState ([⟨"A", "x"⟩], []) ⟨.REPLACE, 1, "B", "y"⟩ =
      .ok ([⟨"B", "y"⟩],
           [⟨"REPLACE", ⟨.REPLACE, 1, "B", "y"⟩, "B", "y",
             some "B", some "y"⟩]) ∧
    ("B" ≠ "A" ∧ "y" ≠ "x") := by
  decide

/-- C5 (amended): an in-bounds Replace overwrites the targeted entity's
kind/text with the payload's kind/text in place, but the history entry
records the payload's kind/text as BOTH the original and the replacement
values; the targeted entity's pre-replace values are not recorded. -/
theorem replace_inplace_history_payload (ents : List Entity)
    (hist : List HistoryEntry) (t : Int) (k txt : String) (j : Nat)
    (hj : pyIdx (t - 1) ents.length = some j) :
    applyOpState (ents, hist) ⟨.REPLACE, t, k, txt⟩ =
      .ok (ents.set j ⟨k, txt⟩,
           hist ++ [⟨"REPLACE", ⟨.REPLACE, t, k, txt⟩, k, txt,
                     some k, some txt⟩]) := by
  simp [applyOpState, hj, OpType.name, Entity.replaceWith]

/-- C5 (witness): replacing entity 2 of a two-entity list in place. -/
theorem replace_inplace_history_payload_witness :
    applyOpState ([⟨"A", "x"⟩, ⟨"C", "z"⟩], []) ⟨.REPLACE, 2, "B", "y"⟩ =
      .ok ([⟨"A", "x"⟩, ⟨"B", "y"⟩],
           [⟨"REPLACE", ⟨.REPLACE, 2, "B", "y"⟩, "B", "y",
             some "B", some "y"⟩]) :=
  replace_inplace_history_payload [⟨"A", "x"⟩, ⟨"C", "z"⟩] [] 2 "B" "y" 1
    (by decide)

/-! ## Claim C7 -/

/-- C7: operations within one revision record are applied strictly in list
order — the runner peels the first operation and feeds its output state to
the rest, so each operation observes the cumulative effect of all earlier
ones; in particular `[Add(A), Add(B), Remove(target=1)]` applied to the
empty list leaves exactly `[B]` (the Remove observes the post-Add list). -/
theorem ops_strict_order_index_shift :
    (∀ (st : PatchState) (e : RevEntity) (rest : List RevEntity),
      runOps st (e :: rest) =
        match applyOpState st e with
        | .error s => .error s
        | .ok s => runOps s rest) ∧
    (∀ kA tA kB tB rk rt : String, ∀ iA iB : Int,
      (modifyDocproto [⟨.ADD, iA, kA, tA⟩, ⟨.ADD, iB, kB, tB⟩,
                       ⟨.REMOVE, 1, rk, rt⟩]).toOption.map Prod.fst =
        some [⟨kB, tB⟩]) :=
  ⟨fun _ _ _ => rfl, fun _ _ _ _ _ _ _ _ => rfl⟩

/-! ## Claim C9 -/

/-- C9: a Remove with `targetIndex = 0` on a non-empty entity list does not
fail: `pop(0 - 1) = pop(-1)` removes the LAST entity, and the history entry
records that last entity's kind/text as the originals. -/
theorem remove_target_zero_removes_last (ents : List Entity)
    (hist : List HistoryEntry) (rk rt : String) (h : ents ≠ []) :
    applyOpState (ents, hist) ⟨.REMOVE, 0, rk, rt⟩ =
      .ok (ents.dropLast,
           hist ++ [⟨"REMOVE", ⟨.REMOVE, 0, rk, rt⟩,
                     (ents.getLast h).type_,
                     (ents.getLast h).mention_text, none, none⟩]) := by
  have hlen : 1 ≤ ents.length := List.length_pos.mpr h
  have hpy : pyIdx (-1 : Int) ents.length = some (ents.length - 1) := by
    unfold pyIdx
    split_ifs with h1 h2
    · exact absurd h1.1 (by omega)
    · congr 1; omega
    · exact absurd ⟨by omega, by omega⟩ h2
  have herase : ents.eraseIdx (ents.length - 1) = ents.dropLast :=
    (List.dropLast_eq_eraseIdx (by omega)).symm
  have hget : ents[ents.length - 1]?.getD (⟨"", ""⟩ : Entity) =
      ents.getLast h := by
    rw [List.getLast_eq_getElem, List.getElem?_eq_getElem (by omega)]
    rfl
  simp [applyOpState, hpy, herase, hget, OpType.name]

/-- C9 (witness): target 0 on `[(A, x), (B, y)]` removes `(B, y)`. -/
theorem remove_target_zero_removes_last_witness :
    applyOpState ([⟨"A", "x"⟩, ⟨"B", "y"⟩], []) ⟨.REMOVE, 0, "", ""⟩ =
      .ok ([⟨"A", "x"⟩],
           [⟨"REMOVE", ⟨.REMOVE, 0, "", ""⟩, "B", "y", none, none⟩]) := by
  simpa using
    remove_target_zero_removes_last [⟨"A", "x"⟩, ⟨"B", "y"⟩] [] "" ""
      (by decide)

/-! ## Claim C10 -/

/-- C10 (counterexample): a Replace with `targetIndex = 0` on the singleton
list `[(A, x)]` has a target outside `1..len(entities)`, yet no failure
occurs: `entities_array[0 - 1]` is the last entity under Python indexing, so
the operation succeeds and CHANGES the entity list, refuting the claim's
universally-asserted failure (with unchanged entities) for every
out-of-`1..len` target. -/
theorem replace_nonatomic_counterexample :
    ¬ (1 ≤ (0 : Int) ∧ (0 : Int) ≤ ([⟨"A", "x"⟩] : List Entity).length) ∧
    applyOpState ([⟨"A", "x"⟩], []) ⟨.REPLACE, 0, "B", "y"⟩ =
      .ok ([⟨"B", "y"⟩],
           [⟨"REPLACE", ⟨.REPLACE, 0, "B", "y"⟩, "B", "y",
             some "B", some "y"⟩]) := by
  decide

/-- C10 (amended): for a Replace whose target is outside the WIDENED Python
range (`targetIndex < 1 - len(entities)` or `targetIndex > len(entities)`),
the failure is not atomic with respect to the history log: the history entry
is appended before the out-of-range access `entities_array[targetIndex - 1]`
raises, so the error state carries `history ++ [entry]` — one more entry
than before the operation — while the entity list is unchanged.  (Targets in
`1 - len .. 0` on a non-empty list do not fail at all; they address from the
end.) -/
theorem replace_oob_appends_history (ents : List Entity)
    (hist : List HistoryEntry) (t : Int) (k txt : String)
    (h : t < 1 - (ents.length : Int) ∨ (ents.length : Int) < t) :
    applyOpState (ents, hist) ⟨.REPLACE, t, k, txt⟩ =
      .error (ents,
              hist ++ [⟨"REPLACE", ⟨.REPLACE, t, k, txt⟩, k, txt,
                        some k, some txt⟩]) ∧
    (hist ++ [(⟨"REPLACE", ⟨.REPLACE, t, k, txt⟩, k, txt,
               some k, some txt⟩ : HistoryEntry)]).length = hist.length + 1 := by
  have hnone : pyIdx (t - 1) ents.length = none :=
    (pyIdx_eq_none_iff _ _).mpr (by omega)
  exact ⟨by simp [applyOpState, hnone, OpType.name], by simp⟩

/-- C10 (witness): Replace with target 5 on a one-entity list fails, leaving
the entity list unchanged but the history one entry longer. -/
theorem replace_oob_appends_history_witness :
    applyOpState ([⟨"A", "x"⟩], []) ⟨.REPLACE, 5, "B", "y"⟩ =
      .error ([⟨"A", "x"⟩],
              [⟨"REPLACE", ⟨.REPLACE, 5, "B", "y"⟩, "B", "y",
                some "B", some "y"⟩]) :=
  (replace_oob_appends_history [⟨"A", "x"⟩] [] 5 "B" "y" (by decide)).1

/-! ## Chain construction lemmas -/

theorem collectSnaps_spec (records : List RevRecord)
    (snaps : List (String × PatchState))
    (h : collectSnaps records = some snaps) :
    snaps.length = records.length ∧
    ∀ k, k < records.length →
      (snaps.getD k ("", ([], []))).1 = (records.getD k ⟨"", [], []⟩).id ∧
      modifyDocproto (records.getD k ⟨"", [], []⟩).entities =
        .ok (snaps.getD k ("", ([], []))).2 := by
  induction records generalizing snaps with
  | nil =>
      simp only [collectSnaps, Option.some.injEq] at h
      subst h
      simp
  | cons r rs ih =>
      rw [collectSnaps] at h
      cases hm : modifyDocproto r.entities with
      | error s => rw [hm] at h; exact absurd h (by simp)
      | ok st =>
          rw [hm] at h
          obtain ⟨rest, hrest, hsnaps⟩ := Option.map_eq_some'.mp h
          subst hsnaps
          obtain ⟨hlen, hk⟩ := ih rest hrest
          refine ⟨by simp [hlen], ?_⟩
          intro k hk'
          cases k with
          | zero => exact ⟨rfl, hm⟩
          | succ j =>
              simp only [List.getD_cons_succ]
              exact hk j (by simpa using hk')

theorem buildChain_nodes (base : BaseDoc) (records : List RevRecord)
    (nodes : List Node) (h : buildChain base records = some nodes) :
    ∃ snaps, collectSnaps records = some snaps ∧
      nodes.length = snaps.length + 1 ∧
      ∀ i, i < snaps.length + 1 →
        nodes.getD i dNode =
          (if i = 0 then mkNode 0 (snaps.length + 1) none base.payload ([], [])
           else
             mkNode i (snaps.length + 1)
               (some (snaps.getD (i - 1) ("", ([], []))).1) base.payload
               (snaps.getD (i - 1) ("", ([], []))).2) := by
  unfold buildChain at h
  cases hc : collectSnaps records with
  | none => rw [hc] at h; exact absurd h (by simp)
  | some snaps =>
      rw [hc] at h
      have h' := Option.some.inj h
      subst h'
      refine ⟨snaps, rfl, by simp, ?_⟩
      intro i hi
      rw [List.getD_eq_getElem?_getD, List.getElem?_map]
      simp [List.getElem?_range, hi]

theorem buildChain_wfLinks (base : BaseDoc) (records : List RevRecord)
    (nodes : List Node) (h : buildChain base records = some nodes) :
    wfLinks nodes := by
  obtain ⟨snaps, _, hlen, hget⟩ := buildChain_nodes base records nodes h
  intro i hi
  have hi' : i < snaps.length + 1 := by omega
  rw [hget i hi', hlen]
  by_cases h0 : i = 0 <;> simp [h0, mkNode]

theorem buildChain_length (base : BaseDoc) (records : List RevRecord)
    (nodes : List Node) (h : buildChain base records = some nodes) :
    nodes.length = records.length + 1 := by
  obtain ⟨snaps, hc, hlen, _⟩ := buildChain_nodes base records nodes h
  rw [hlen, (collectSnaps_spec records snaps hc).1]

/-! ## Claim C1 -/

/-- C1 (counterexample): on the two-record sample (record 1 adds `(A, x)`,
record 2 adds `(B, y)`), folding record 2's operations over record 1's
snapshot entity list yields `[(A, x), (B, y)]`, but record 2's snapshot
entity list is `[(B, y)]` — each record's replay restarts from the EMPTY
entity list, not from the preceding snapshot's list. -/
theorem c1_crossrecord_counterexample :
    (runOps ((sampleChain.getD 1 dNode).entities, [])
        [⟨.ADD, 0, "B", "y"⟩]).toOption.map Prod.fst =
      some [⟨"A", "x"⟩, ⟨"B", "y"⟩] ∧
    (sampleChain.getD 2 dNode).entities = [⟨"B", "y"⟩] ∧
    ([⟨"B", "y"⟩] : List Entity) ≠ [⟨"A", "x"⟩, ⟨"B", "y"⟩] := by
  decide

/-- C1 (amended): the snapshot built for record k clones the base document's
non-entity payload (pages/text) — which equals every preceding snapshot's
payload — but its entity list (and history) is the result of folding record
k's operations over the EMPTY entity list, not over record k-1's entity
list: `_modify_docproto` starts from a fresh `entities_array = []` for every
record. -/
theorem snapshot_entities_from_empty_fold (base : BaseDoc)
    (records : List RevRecord) (nodes : List Node)
    (h : buildChain base records = some nodes) (k : Nat)
    (hk : k < records.length) :
    modifyDocproto (records.getD k ⟨"", [], []⟩).entities =
      .ok ((nodes.getD (k + 1) dNode).entities,
           (nodes.getD (k + 1) dNode).history) ∧
    (nodes.getD (k + 1) dNode).payload = base.payload ∧
    (nodes.getD (k + 1) dNode).revision_id =
      some (records.getD k ⟨"", [], []⟩).id := by
  obtain ⟨snaps, hc, hlen, hget⟩ := buildChain_nodes base records nodes h
  obtain ⟨hslen, hspec⟩ := collectSnaps_spec records snaps hc
  have hk1 : k + 1 < snaps.length + 1 := by omega
  obtain ⟨hid, hm⟩ := hspec k hk
  rw [hget (k + 1) hk1]
  refine ⟨?_, ?_, ?_⟩
  · simpa [mkNode] using hm
  · simp [mkNode]
  · rw [if_neg (Nat.succ_ne_zero k)]
    simp only [mkNode, Nat.add_sub_cancel]
    exact congrArg some hid

/-- C1 (witness): record 2 of the sample chain. -/
theorem snapshot_entities_from_empty_fold_witness :
    modifyDocproto (sampleRecords.getD 1 ⟨"", [], []⟩).entities =
      .ok ((sampleChain.getD 2 dNode).entities,
           (sampleChain.getD 2 dNode).history) ∧
    (sampleChain.getD 2 dNode).payload = sampleBase.payload ∧
    (sampleChain.getD 2 dNode).revision_id =
      some (sampleRecords.getD 1 ⟨"", [], []⟩).id :=
  snapshot_entities_from_empty_fold sampleBase sampleRecords sampleChain rfl
    1 (by decide)

/-! ## Claim C6 -/

/-- C6 (counterexample): from an empty base, the record `[Add(K, v)]`
followed by the record `[Remove(target=1)]` does not yield a final snapshot
with an empty entity list — the whole build fails (`none`), because record
2's replay starts from the empty entity list and `pop(0)` raises an
IndexError that escapes `from_gcs_prefix_with_revisions`. -/
theorem c6_crossrecord_counterexample :
    buildChain ⟨"t"⟩ [⟨"r1", [], [⟨.ADD, 0, "K", "v"⟩]⟩,
                      ⟨"r2", ["r1"], [⟨.REMOVE, 1, "", ""⟩]⟩] = none := by
  rfl

/-- C6 (amended): the Add/Remove inverse law holds only WITHIN a single
record: a record `[Add(kind=K, text=T), Remove(target=1)]` yields a snapshot
whose entity list is empty (equal to the list before the Add), while
splitting the two operations into consecutive records makes the build fail,
since each record's replay starts from the empty entity list. -/
theorem add_remove_inverse_single_record (base : BaseDoc)
    (rid rid2 : String) (p1 p2 : List String) (K T rk rt : String)
    (iA : Int) :
    (buildChain base [⟨rid, p1, [⟨.ADD, iA, K, T⟩, ⟨.REMOVE, 1, rk, rt⟩]⟩]).map
        (fun ns => (ns.getD 1 dNode).entities) = some [] ∧
    buildChain base [⟨rid, p1, [⟨.ADD, iA, K, T⟩]⟩,
                     ⟨rid2, p2, [⟨.REMOVE, 1, rk, rt⟩]⟩] = none :=
  ⟨rfl, rfl⟩

/-! ## Claim C8 -/

/-- C8: chain construction is deterministic — the replay reads nothing but
`(baseDocument, records)`, so two builds from identical inputs produce
identical node lists, and in particular snapshots with identical entity
lists and history logs at every revision id (= at every chain position). -/
theorem buildChain_deterministic (b1 b2 : BaseDoc) (r1 r2 : List RevRecord)
    (hb : b1 = b2) (hr : r1 = r2) (ns1 ns2 : List Node)
    (h1 : buildChain b1 r1 = some ns1) (h2 : buildChain b2 r2 = some ns2) :
    ns1 = ns2 ∧
    ∀ i, (ns1.getD i dNode).revision_id = (ns2.getD i dNode).revision_id ∧
         (ns1.getD i dNode).entities = (ns2.getD i dNode).entities ∧
         (ns1.getD i dNode).history = (ns2.getD i dNode).history := by
  subst hb; subst hr
  rw [h1] at h2
  cases Option.some.inj h2
  exact ⟨rfl, fun _ => ⟨rfl, rfl, rfl⟩⟩

/-- C8 (witness): the sample build, run twice. -/
theorem buildChain_deterministic_witness :
    sampleChain = sampleChain ∧
    ∀ i, (sampleChain.getD i dNode).revision_id =
           (sampleChain.getD i dNode).revision_id ∧
         (sampleChain.getD i dNode).entities =
           (sampleChain.getD i dNode).entities ∧
         (sampleChain.getD i dNode).history =
           (sampleChain.getD i dNode).history :=
  buildChain_deterministic sampleBase sampleBase sampleRecords sampleRecords
    rfl rfl sampleChain sampleChain rfl rfl

/-! ## Lookup loop lemmas

On any chain whose links are the doubly-linked structure `buildChain`
produces, every link reassignment `at_revision` performs writes the value
the link already holds, so each loop step leaves the node list unchanged. -/

theorem backLoop_stop (id : String) (fuel : Nat) (nodes : List Node)
    (cur : Nat)
    (h : some id = (nodes.getD cur dNode).revision_id ∨
         (nodes.getD cur dNode).last = none) :
    backLoop id fuel nodes cur = (nodes, cur) := by
  cases fuel with
  | zero => rfl
  | succ f =>
      rw [backLoop]
      cases hl : (nodes.getD cur dNode).last with
      | none => rfl
      | some p =>
          rcases h with h | h
          · dsimp only
            rw [if_pos h]
          · rw [hl] at h; exact absurd h (by simp)

theorem backLoop_step (id : String) (f : Nat) (nodes : List Node)
    (cur : Nat) (wf : wfLinks nodes) (hcur : cur < nodes.length)
    (h0 : cur ≠ 0)
    (hne : ¬ some id = (nodes.getD cur dNode).revision_id) :
    backLoop id (f + 1) nodes cur = backLoop id f nodes (cur - 1) := by
  obtain ⟨hlast, _⟩ := wf cur hcur
  have hplt : cur - 1 < nodes.length := by omega
  obtain ⟨_, hnext⟩ := wf (cur - 1) hplt
  have hnext' : (nodes.getD (cur - 1) dNode).next_ = some cur := by
    rw [hnext, if_neg (by omega)]
    congr 1
    omega
  rw [backLoop, hlast, if_neg h0]
  dsimp only
  rw [if_neg hne, node_set_next_self _ _ hnext', list_set_getD]

theorem fwdLoop_stop (id : String) (fuel : Nat) (nodes : List Node)
    (cur : Nat)
    (h : some id = (nodes.getD cur dNode).revision_id ∨
         (nodes.getD cur dNode).next_ = none) :
    fwdLoop id fuel nodes cur = (nodes, cur) := by
  cases fuel with
  | zero => rfl
  | succ f =>
      rw [fwdLoop]
      cases hl : (nodes.getD cur dNode).next_ with
      | none => rfl
      | some p =>
          rcases h with h | h
          · dsimp only
            rw [if_pos h]
          · rw [hl] at h; exact absurd h (by simp)

theorem fwdLoop_step (id : String) (f : Nat) (nodes : List Node)
    (cur : Nat) (wf : wfLinks nodes) (hcur : cur < nodes.length)
    (h0 : cur ≠ nodes.length - 1)
    (hne : ¬ some id = (nodes.getD cur dNode).revision_id) :
    fwdLoop id (f + 1) nodes cur = fwdLoop id f nodes (cur + 1) := by
  obtain ⟨_, hnext⟩ := wf cur hcur
  have hplt : cur + 1 < nodes.length := by omega
  obtain ⟨hlast, _⟩ := wf (cur + 1) hplt
  have hlast' : (nodes.getD (cur + 1) dNode).last = some cur := by
    rw [hlast, if_neg (by omega)]
    congr 1
  rw [fwdLoop, hnext, if_neg h0]
  dsimp only
  rw [if_neg hne, node_set_last_self _ _ hlast', list_set_getD]

theorem backLoop_preserve (id : String) (fuel : Nat) (nodes : List Node)
    (wf : wfLinks nodes) :
    ∀ cur, cur < nodes.length →
      ∃ c, c ≤ cur ∧ backLoop id fuel nodes cur = (nodes, c) := by
  induction fuel with
  | zero => exact fun cur _ => ⟨cur, le_rfl, rfl⟩
  | succ f ih =>
      intro cur hcur
      by_cases hm : some id = (nodes.getD cur dNode).revision_id
      · exact ⟨cur, le_rfl, backLoop_stop id (f + 1) nodes cur (Or.inl hm)⟩
      · by_cases h0 : cur = 0
        · refine ⟨cur, le_rfl, backLoop_stop id (f + 1) nodes cur (Or.inr ?_)⟩
          rw [(wf cur hcur).1, if_pos h0]
        · obtain ⟨c, hc, heq⟩ := ih (cur - 1) (by omega)
          refine ⟨c, by omega, ?_⟩
          rw [backLoop_step id f nodes cur wf hcur h0 hm, heq]

theorem backLoop_noMatch (id : String) (nodes : List Node)
    (wf : wfLinks nodes)
    (hmiss : ∀ i, i < nodes.length →
      ¬ some id = (nodes.getD i dNode).revision_id) :
    ∀ cur fuel, cur < nodes.length → cur ≤ fuel →
      backLoop id fuel nodes cur = (nodes, 0) := by
  intro cur
  induction cur with
  | zero =>
      intro fuel h0 _
      refine backLoop_stop id fuel nodes 0 (Or.inr ?_)
      rw [(wf 0 h0).1]
      simp
  | succ c ih =>
      intro fuel hcur hfuel
      cases fuel with
      | zero => omega
      | succ f =>
          rw [backLoop_step id f nodes (c + 1) wf hcur (Nat.succ_ne_zero c)
                (hmiss (c + 1) hcur)]
          simpa using ih f (by omega) (by omega)

theorem fwdLoop_preserve (id : String) (fuel : Nat) (nodes : List Node)
    (wf : wfLinks nodes) :
    ∀ cur, cur < nodes.length →
      ∃ c, c < nodes.length ∧ fwdLoop id fuel nodes cur = (nodes, c) := by
  induction fuel with
  | zero => exact fun cur hcur => ⟨cur, hcur, rfl⟩
  | succ f ih =>
      intro cur hcur
      by_cases hm : some id = (nodes.getD cur dNode).revision_id
      · exact ⟨cur, hcur, fwdLoop_stop id (f + 1) nodes cur (Or.inl hm)⟩
      · by_cases h0 : cur = nodes.length - 1
        · refine ⟨cur, hcur, fwdLoop_stop id (f + 1) nodes cur (Or.inr ?_)⟩
          rw [(wf cur hcur).2, if_pos h0]
        · obtain ⟨c, hc, heq⟩ := ih (cur + 1) (by omega)
          refine ⟨c, hc, ?_⟩
          rw [fwdLoop_step id f nodes cur wf hcur h0 hm, heq]

theorem fwdLoop_noMatch (id : String) (nodes : List Node)
    (wf : wfLinks nodes)
    (hmiss : ∀ i, i < nodes.length →
      ¬ some id = (nodes.getD i dNode).revision_id) :
    ∀ fuel cur, cur < nodes.length → nodes.length - 1 - cur ≤ fuel →
      fwdLoop id fuel nodes cur = (nodes, nodes.length - 1) := by
  intro fuel
  induction fuel with
  | zero =>
      intro cur hcur hf
      have hc : cur = nodes.length - 1 := by omega
      subst hc
      rfl
  | succ f ih =>
      intro cur hcur hf
      by_cases h0 : cur = nodes.length - 1
      · rw [fwdLoop_stop id (f + 1) nodes cur
              (Or.inr (by rw [(wf cur hcur).2, if_pos h0])), h0]
      · rw [fwdLoop_step id f nodes cur wf hcur h0 (hmiss cur hcur)]
        exact ih (cur + 1) (by omega) (by omega)

/-! ## Claim C2 -/

/-- C2: on every chain `buildChain` produces, `at_revision` leaves the node
list — in particular every node's `next_`/`last` link and history log —
unchanged, for any lookup id, any starting node and any fuel; hence any
number of repeated calls leaves the chain unchanged as well.  The source
does reassign links while walking, but on the consistently doubly-linked
chain the construction leaves behind, every reassignment writes the value
the link already holds. -/
theorem atRevision_preserves_chain (base : BaseDoc)
    (records : List RevRecord) (nodes : List Node)
    (h : buildChain base records = some nodes) (fuel cur : Nat)
    (id : String) (hcur : cur < nodes.length) :
    (atRevision fuel nodes cur id).1 = nodes := by
  have wf := buildChain_wfLinks base records nodes h
  obtain ⟨c1, hc1, hback⟩ := backLoop_preserve id fuel nodes wf cur hcur
  unfold atRevision
  rw [hback]
  dsimp only
  by_cases h1 : some id = (nodes.getD c1 dNode).revision_id
  · rw [if_pos h1]
  · rw [if_neg h1]
    obtain ⟨c2, hc2, hfwd⟩ := fwdLoop_preserve id fuel nodes wf c1 (by omega)
    rw [hfwd]
    dsimp only
    by_cases h2 : some id = (nodes.getD c2 dNode).revision_id
    · rw [if_pos h2]
    · rw [if_neg h2]

/-- C2 (witness): looking up `r1` from the tail of the sample chain. -/
theorem atRevision_preserves_chain_witness :
    (atRevision 3 sampleChain 2 "r1").1 = sampleChain :=
  atRevision_preserves_chain sampleBase sampleRecords sampleChain rfl 3 2
    "r1" (by decide)

/-! ## Claim C3 -/

/-- C3 (counterexample): looking up an id that matches no snapshot returns
the string literal `"Not Found"` — a string sentinel, not a distinguished
NotFound result value, refuting the claim that the lookup never returns a
string sentinel. -/
theorem c3_sentinel_counterexample :
    (atRevision 3 sampleChain 2 "missing").2 = .str "Not Found" ∧
    ∀ i, (LookupResult.str "Not Found") ≠ .snap i :=
  ⟨by decide, fun i h => by cases h⟩

/-- C3 (amended): for every id that matches no snapshot's revision id,
`at_revision` returns the string sentinel `"Not Found"` (the source's
line `return "Not Found"`), not a distinguished NotFound result value. -/
theorem atRevision_missing_returns_sentinel (base : BaseDoc)
    (records : List RevRecord) (nodes : List Node)
    (h : buildChain base records = some nodes) (fuel cur : Nat)
    (id : String) (hcur : cur < nodes.length)
    (hfuel : nodes.length ≤ fuel)
    (hmiss : ∀ i, i < nodes.length →
      (nodes.getD i dNode).revision_id ≠ some id) :
    atRevision fuel nodes cur id = (nodes, .str "Not Found") := by
  have wf := buildChain_wfLinks base records nodes h
  have hmiss' : ∀ i, i < nodes.length →
      ¬ some id = (nodes.getD i dNode).revision_id :=
    fun i hi he => hmiss i hi he.symm
  have hback := backLoop_noMatch id nodes wf hmiss' cur fuel hcur (by omega)
  unfold atRevision
  rw [hback]
  dsimp only
  rw [if_neg (hmiss' 0 (by omega))]
  rw [fwdLoop_noMatch id nodes wf hmiss' fuel 0 (by omega) (by omega)]
  dsimp only
  rw [if_neg (hmiss' (nodes.length - 1) (by omega))]

/-- C3 (witness): looking up the absent id `zzz` in the sample chain. -/
theorem atRevision_missing_returns_sentinel_witness :
    atRevision 3 sampleChain 2 "zzz" = (sampleChain, .str "Not Found") :=
  atRevision_missing_returns_sentinel sampleBase sampleRecords sampleChain
    rfl 3 2 "zzz" (by decide) (by decide) (by decide)

end DocRev
